import Mathlib

/-!
Verification development for the in-browser diagram editor ("web.DB_helper").
The definitions below are a shallow embedding of the refined editor iteration
(the one with the history controller): its type definitions, the pure geometry
helper `calculateRelationshipRenderProps`, the store mutations performed by the
event handlers (`handleEntityClick`, `handleDeleteSelected`,
`handleCardinalityChange`, `handleFinishEditing`, `handleDragMove`,
`handleDragEnd`, `handleAddEntity`) and the history controller
(`updateState`, `handleUndo`, `handleRedo`, `history[historyIndex]`).

JavaScript numbers are modelled as exact rationals; distance comparisons, which
the source performs on `Math.hypot` values, are modelled by comparing squared
distances (the square root is strictly monotone on nonnegative values, so the
strict comparisons agree).  Fresh identifiers (`crypto.randomUUID()`), the
pointer positions and the rename text value are nondeterministic inputs of the
source handlers and are passed as explicit arguments.  React state setters are
modelled by sequential state passing.
-/

namespace DBHelper

/-- `type EntityType = 'Entity' | 'Action' | 'Attribute'`. -/
inductive EntityType where
  | Entity
  | Action
  | Attribute
deriving DecidableEq

/-- `type Cardinality = 'ONE_AND_ONLY_ONE' | 'ZERO_OR_ONE' | 'ONE_OR_MANY' | 'ZERO_OR_MANY' | 'ONE' | 'MANY'`. -/
inductive Cardinality where
  | ONE_AND_ONLY_ONE
  | ZERO_OR_ONE
  | ONE_OR_MANY
  | ZERO_OR_MANY
  | ONE
  | MANY
deriving DecidableEq

/-- `const CARDINALITIES: Cardinality[] = [...]`, the fixed 6-value enumeration. -/
def CARDINALITIES : List Cardinality :=
  [.ONE_AND_ONLY_ONE, .ZERO_OR_ONE, .ONE_OR_MANY, .ZERO_OR_MANY, .ONE, .MANY]

/-- `interface Entity { id; x; y; width; height; name; type }`. -/
structure Entity where
  id : String
  x : ℚ
  y : ℚ
  width : ℚ
  height : ℚ
  name : String
  type : EntityType
deriving DecidableEq

/-- `interface Relationship { id; fromId; toId; startCardinality; endCardinality }`. -/
structure Relationship where
  id : String
  fromId : String
  toId : String
  startCardinality : Cardinality
  endCardinality : Cardinality
deriving DecidableEq

/-- One history entry: `{ entities: Entity[], relationships: Relationship[] }`. -/
structure Snapshot where
  entities : List Entity
  relationships : List Relationship
deriving DecidableEq

/-- The history controller state: `history` array plus `historyIndex` cursor. -/
structure AppState where
  history : List Snapshot
  historyIndex : ℕ
deriving DecidableEq

/-- `useState([{ entities: [], relationships: [] }])`, `useState(0)`. -/
def initialAppState : AppState := { history := [⟨[], []⟩], historyIndex := 0 }

/-- `const { entities, relationships } = history[historyIndex]`. -/
def currentSnapshot (s : AppState) : Snapshot :=
  s.history.getD s.historyIndex ⟨[], []⟩

/-- `updateState`: truncate after the cursor, append the new snapshot, advance
the cursor onto it. -/
def updateState (s : AppState) (newEntities : List Entity)
    (newRelationships : List Relationship) : AppState :=
  let newHistory := s.history.take (s.historyIndex + 1)
  { history := newHistory ++ [⟨newEntities, newRelationships⟩],
    historyIndex := newHistory.length }

/-- `handleUndo = () => { if (historyIndex > 0) setHistoryIndex(historyIndex - 1) }`. -/
def handleUndo (s : AppState) : AppState :=
  if s.historyIndex > 0 then { s with historyIndex := s.historyIndex - 1 } else s

/-- `handleRedo = () => { if (historyIndex < history.length - 1) setHistoryIndex(historyIndex + 1) }`. -/
def handleRedo (s : AppState) : AppState :=
  if s.historyIndex < s.history.length - 1 then
    { s with historyIndex := s.historyIndex + 1 }
  else s

/-- `relationshipCreation: { active: boolean; fromId: string | null }`. -/
structure RelCreation where
  active : Bool
  fromId : Option String
deriving DecidableEq

/-- The interaction-relevant UI state around the store: selection, connection
creation mode and rename editing, as held by the `App` component. -/
structure ErdState where
  app : AppState
  selectedEntityId : Option String
  selectedRelationshipId : Option String
  relationshipCreation : RelCreation
  editingEntityId : Option String
deriving DecidableEq

/-- `relationships.some(rel => (rel.fromId === fromId && rel.toId === toId) ||
(rel.fromId === toId && rel.toId === fromId))`. -/
def alreadyExists (rels : List Relationship) (fromId toId : String) : Bool :=
  rels.any fun rel =>
    decide ((rel.fromId = fromId ∧ rel.toId = toId) ∨
            (rel.fromId = toId ∧ rel.toId = fromId))

/-- `handleFinishEditing`: commit the rename of `editingEntityId` to the
textarea value (one committed mutation), then leave editing mode. -/
def handleFinishEditing (s : ErdState) (textValue : String) : ErdState :=
  match s.editingEntityId with
  | none => s
  | some eid =>
    let snap := currentSnapshot s.app
    { s with
      app := updateState s.app
        (snap.entities.map fun e =>
          if e.id = eid then { e with name := textValue } else e)
        snap.relationships,
      editingEntityId := none }

/-- The part of `handleEntityClick` after the pending rename has been flushed:
either select the shape (connection mode inactive), record it as the connection
source, ignore a click on the source itself, reject a duplicate connection, or
create the new `Relationship` with both cardinalities `ONE_AND_ONLY_ONE`. -/
def handleEntityClickCore (s1 : ErdState) (id newRelId : String) : ErdState :=
  if s1.relationshipCreation.active = false then
    { s1 with selectedRelationshipId := none, selectedEntityId := some id }
  else
    match s1.relationshipCreation.fromId with
    | none => { s1 with selectedEntityId := none,
                        relationshipCreation := ⟨true, some id⟩ }
    | some fromId =>
      if fromId = id then s1
      else if alreadyExists (currentSnapshot s1.app).relationships fromId id then
        { s1 with relationshipCreation := ⟨false, none⟩ }
      else
        let snap := currentSnapshot s1.app
        { s1 with
          app := updateState s1.app snap.entities
            (snap.relationships ++
              [⟨newRelId, fromId, id, .ONE_AND_ONLY_ONE, .ONE_AND_ONLY_ONE⟩]),
          relationshipCreation := ⟨false, none⟩ }

/-- `handleEntityClick`: `if (editingEntityId) { handleFinishEditing(); ... }`
followed by the selection / connection-creation branching. -/
def handleEntityClick (s : ErdState) (id newRelId textValue : String) : ErdState :=
  handleEntityClickCore
    (match s.editingEntityId with
      | some _ => handleFinishEditing s textValue
      | none => s)
    id newRelId

/-- `handleDeleteSelected`: delete the selected entity together with every
relationship referencing it in one `updateState` call, or delete the selected
relationship. -/
def handleDeleteSelected (s : ErdState) : ErdState :=
  match s.selectedEntityId with
  | some sel =>
    let snap := currentSnapshot s.app
    { s with
      app := updateState s.app
        (snap.entities.filter fun e => decide (e.id ≠ sel))
        (snap.relationships.filter fun r =>
          decide (r.fromId ≠ sel ∧ r.toId ≠ sel)),
      selectedEntityId := none }
  | none =>
    match s.selectedRelationshipId with
    | some selRel =>
      let snap := currentSnapshot s.app
      { s with
        app := updateState s.app snap.entities
          (snap.relationships.filter fun rel => decide (rel.id ≠ selRel)),
        selectedRelationshipId := none }
    | none => s

/-- The two ends of a connection, `'start' | 'end'` in the source. -/
inductive WhichEnd where
  | startSide
  | endSide
deriving DecidableEq

/-- `const nextIndex = (CARDINALITIES.indexOf(current) + 1) % CARDINALITIES.length;
CARDINALITIES[nextIndex]`. -/
def nextCardinality (c : Cardinality) : Cardinality :=
  CARDINALITIES.getD ((CARDINALITIES.indexOf c + 1) % CARDINALITIES.length) c

/-- The per-relationship update performed inside `handleCardinalityChange`. -/
def cycleRel (relationshipId : String) (point : WhichEnd)
    (rel : Relationship) : Relationship :=
  if rel.id = relationshipId then
    match point with
    | .startSide => { rel with startCardinality := nextCardinality rel.startCardinality }
    | .endSide => { rel with endCardinality := nextCardinality rel.endCardinality }
  else rel

/-- `handleCardinalityChange`: advance the clicked end of the clicked
relationship to the next cardinality and commit the mapped relationship list. -/
def handleCardinalityChange (s : ErdState) (relationshipId : String)
    (point : WhichEnd) : ErdState :=
  let snap := currentSnapshot s.app
  { s with
    app := updateState s.app snap.entities
      (snap.relationships.map (cycleRel relationshipId point)) }

/-- `handleDragEnd`: commit the dragged entity at the node's release position
(one `updateState` call). -/
def handleDragEnd (s : ErdState) (id : String) (finalX finalY : ℚ) : ErdState :=
  let snap := currentSnapshot s.app
  { s with
    app := updateState s.app
      (snap.entities.map fun en =>
        if en.id = id then { en with x := finalX, y := finalY } else en)
      snap.relationships }

/-- The display string of an entity kind, as interpolated by `` `${type} ${count}` ``. -/
def typeName : EntityType → String
  | .Entity => "Entity"
  | .Action => "Action"
  | .Attribute => "Attribute"

/-- `handleAddEntity`: append a fresh entity with the kind-dependent default
extent and the auto-numbered display name, committing one snapshot. -/
def handleAddEntity (s : ErdState) (etype : EntityType) (newId : String)
    (spawnX spawnY : ℚ) : ErdState :=
  let snap := currentSnapshot s.app
  let count := (snap.entities.filter fun e => decide (e.type = etype)).length + 1
  let newEntity : Entity :=
    { id := newId, x := spawnX, y := spawnY,
      width := if etype = .Action then 120 else 150,
      height := if etype = .Action then 120 else 75,
      name := typeName etype ++ " " ++ toString count,
      type := etype }
  { s with app := updateState s.app (snap.entities ++ [newEntity]) snap.relationships }

/-! ## Geometry engine (`calculateRelationshipRenderProps`) -/

/-- A canvas point. -/
structure Point where
  x : ℚ
  y : ℚ
deriving DecidableEq

/-- `getAnchors`: the midpoints of the top, right, bottom and left bounding
edges, in source order. -/
def getAnchors (e : Entity) : List Point :=
  [⟨e.x + e.width / 2, e.y⟩,
   ⟨e.x + e.width, e.y + e.height / 2⟩,
   ⟨e.x + e.width / 2, e.y + e.height⟩,
   ⟨e.x, e.y + e.height / 2⟩]

/-- Squared Euclidean distance.  The source compares `Math.hypot` values; the
square root is strictly monotone on nonnegative reals, so `hypot p < hypot q`
iff `distSq p < distSq q` and the selected pair is the same. -/
def distSq (p q : Point) : ℚ := (p.x - q.x) ^ 2 + (p.y - q.y) ^ 2

/-- Squared length of an anchor pair. -/
def ddPair (p : Point × Point) : ℚ := distSq p.1 p.2

/-- The 4×4 anchor pairs in the evaluation order of the nested `for` loops
(from-anchor major). -/
def allAnchorPairs (fromAnchors toAnchors : List Point) : List (Point × Point) :=
  fromAnchors.flatMap fun f => toAnchors.map fun t => (f, t)

/-- The scan of the nested loops: keep the pair whenever its distance is
strictly below the running minimum.  `none` models the initial
`minDistance = Infinity`, which every finite distance beats. -/
def scanBest : List (Point × Point) → Point × Point → Option ℚ → Point × Point
  | [], best, _ => best
  | p :: rest, _, none => scanBest rest p (some (ddPair p))
  | p :: rest, best, some m =>
    if ddPair p < m then scanBest rest p (some (ddPair p))
    else scanBest rest best (some m)

/-- `bestPoints`: the anchor pair selected by the scan, initialised with
`{ from: fromAnchors[0], to: toAnchors[0] }`. -/
def bestPoints (fromEntity toEntity : Entity) : Point × Point :=
  let fromAnchors := getAnchors fromEntity
  let toAnchors := getAnchors toEntity
  scanBest (allAnchorPairs fromAnchors toAnchors)
    (fromAnchors.getD 0 ⟨0, 0⟩, toAnchors.getD 0 ⟨0, 0⟩) none

/-- `const points = [from.x, from.y, to.x, to.y]`, the connector line. -/
def routeLine (fromEntity toEntity : Entity) : List ℚ :=
  let bp := bestPoints fromEntity toEntity
  [bp.1.x, bp.1.y, bp.2.x, bp.2.y]

/-- A cardinality-marker pose, represented by the data that determines the
rendered transform: the rendered position is
`base + 20 * (offX, offY) / hypot(offX, offY)` and the rendered rotation is the
direction angle of `(rotX, rotY)` (`atan2`-angles equal modulo 360 degrees
exactly when the direction vectors are positively parallel).  In the source the
start marker sits at `from + 20 * (cos a, sin a)` with rotation `a + 180` and
the end marker at `to - 20 * (cos a, sin a)` with rotation `a`, where `a` is
the angle of `to - from`. -/
structure MarkerPose where
  base : Point
  offX : ℚ
  offY : ℚ
  rotX : ℚ
  rotY : ℚ
deriving DecidableEq

/-- `startSymbolProps` of the computed route. -/
def startMarker (fromEntity toEntity : Entity) : MarkerPose :=
  let bp := bestPoints fromEntity toEntity
  let dx := bp.2.x - bp.1.x
  let dy := bp.2.y - bp.1.y
  ⟨bp.1, dx, dy, -dx, -dy⟩

/-- `endSymbolProps` of the computed route. -/
def endMarker (fromEntity toEntity : Entity) : MarkerPose :=
  let bp := bestPoints fromEntity toEntity
  let dx := bp.2.x - bp.1.x
  let dy := bp.2.y - bp.1.y
  ⟨bp.2, -dx, -dy, dx, dy⟩

/-! ## Live drag feedback (`handleDragMove` / `handleDragEnd`) -/

/-- The renderer-owned connector nodes: for each relationship id the points of
its `.relationship-line`, mutated imperatively during a drag. -/
def RendererLines : Type := List (String × List ℚ)

/-- `handleDragMove`: recompute the connector line of every relationship
touching the dragged entity against the entity's transient pointer position and
write it into the renderer; the store is not consulted for writes. -/
def dragMoveRenderer (snap : Snapshot) (entityId : String) (px py : ℚ)
    (renderer : RendererLines) : RendererLines :=
  match snap.entities.find? fun en => decide (en.id = entityId) with
  | none => renderer
  | some dragged =>
    let temp := { dragged with x := px, y := py }
    snap.relationships.foldl
      (fun r rel =>
        if rel.fromId = entityId ∨ rel.toId = entityId then
          let fromE := if rel.fromId = entityId then some temp
            else snap.entities.find? fun en => decide (en.id = rel.fromId)
          let toE := if rel.toId = entityId then some temp
            else snap.entities.find? fun en => decide (en.id = rel.toId)
          match fromE, toE with
          | some f, some t =>
            r.map fun kv => if kv.1 = rel.id then (kv.1, routeLine f t) else kv
          | _, _ => r
        else r)
      renderer

/-- A drag interaction: the persistent editor state plus the renderer nodes the
intermediate pointer-moves draw into. -/
structure DragSession where
  erd : ErdState
  renderer : RendererLines

/-- One intermediate pointer-move of a drag: renderer-only feedback. -/
def handleDragMove (ds : DragSession) (entityId : String) (px py : ℚ) : DragSession :=
  { ds with
    renderer := dragMoveRenderer (currentSnapshot ds.erd.app) entityId px py ds.renderer }

/-- A whole drag: the intermediate pointer-moves followed by the drag-end
commit at the release position. -/
def dragSequence (ds : DragSession) (entityId : String) (moves : List (ℚ × ℚ))
    (finalX finalY : ℚ) : DragSession :=
  let after := moves.foldl (fun acc p => handleDragMove acc entityId p.1 p.2) ds
  { after with erd := handleDragEnd after.erd entityId finalX finalY }

/-! ## Invariants -/

/-- Two relationships connect the same unordered pair of shapes. -/
def samePair (r1 r2 : Relationship) : Prop :=
  (r1.fromId = r2.fromId ∧ r1.toId = r2.toId) ∨
  (r1.fromId = r2.toId ∧ r1.toId = r2.fromId)

/-- No two relationships share the same unordered `{fromId, toId}` pair. -/
def NoDupPairs (rels : List Relationship) : Prop :=
  rels.Pairwise fun a b => ¬ samePair a b

/-! ## Concrete sample inputs (used to instantiate the theorems) -/

def idA : String := "a"

def idB : String := "b"

def idM : String := "m"

def idZ : String := "z"

def rid1 : String := "r1"

def rid2 : String := "r2"

def entA : Entity :=
  { id := idA, x := 0, y := 0, width := 150, height := 75, name := idA, type := .Entity }

def entB : Entity :=
  { id := idB, x := 300, y := 0, width := 120, height := 120, name := idB, type := .Action }

def entM : Entity :=
  { id := idM, x := 150, y := 150, width := 150, height := 75, name := idM, type := .Attribute }

def relAB : Relationship :=
  { id := rid1, fromId := idA, toId := idB,
    startCardinality := .ONE_AND_ONLY_ONE, endCardinality := .ONE_AND_ONLY_ONE }

def relMA : Relationship :=
  { id := rid1, fromId := idM, toId := idA,
    startCardinality := .ONE, endCardinality := .MANY }

def relBM : Relationship :=
  { id := rid2, fromId := idB, toId := idM,
    startCardinality := .ZERO_OR_ONE, endCardinality := .ONE_OR_MANY }

def snapAB : Snapshot := ⟨[entA, entB], [relAB]⟩

def appAB : AppState := ⟨[⟨[], []⟩, snapAB], 1⟩

def stateAB : ErdState := ⟨appAB, none, none, ⟨false, none⟩, none⟩

def stateConn : ErdState := ⟨appAB, none, none, ⟨true, some idA⟩, none⟩

def appNoRel : AppState := ⟨[⟨[], []⟩, ⟨[entA, entB], []⟩], 1⟩

def stateConnFree : ErdState := ⟨appNoRel, none, none, ⟨true, some idA⟩, none⟩

def appDel : AppState := ⟨[⟨[], []⟩, ⟨[entA, entM, entB], [relMA, relBM]⟩], 1⟩

def stateDel : ErdState := ⟨appDel, some idM, none, ⟨false, none⟩, none⟩

def stateStale : ErdState := ⟨appAB, none, none, ⟨false, none⟩, some idZ⟩

def dragStart : DragSession := ⟨stateAB, [(rid1, [0, 0, 0, 0])]⟩

def geoA : Entity :=
  { id := idA, x := 0, y := 0, width := 10, height := 10, name := idA, type := .Entity }

def geoB : Entity :=
  { id := idB, x := 30, y := 0, width := 10, height := 10, name := idB, type := .Entity }

def geoC : Entity :=
  { id := idM, x := 20, y := -20, width := 10, height := 10, name := idM, type := .Entity }

/-! ## List helper lemmas -/

theorem listGetD_concat {α : Type} (l : List α) (a d : α) :
    (l ++ [a]).getD l.length d = a := by
  induction l with
  | nil => rfl
  | cons x xs ih => exact ih

theorem listGetD_append_left {α : Type} :
    ∀ (l l2 : List α) (n : ℕ) (d : α), n < l.length →
      (l ++ l2).getD n d = l.getD n d
  | [], _, n, _, h => by simp at h
  | _ :: _, _, 0, _, _ => rfl
  | x :: xs, l2, n + 1, d, h => by
    simpa [List.getD] using
      listGetD_append_left xs l2 n d (Nat.lt_of_succ_lt_succ h)

theorem listGetD_take {α : Type} :
    ∀ (l : List α) (n i : ℕ) (d : α), i < n →
      (l.take n).getD i d = l.getD i d
  | [], _, _, _, _ => by simp
  | _ :: _, 0, i, _, h => by omega
  | _ :: _, n + 1, 0, _, _ => rfl
  | x :: xs, n + 1, i + 1, d, h => by
    simpa [List.getD] using
      listGetD_take xs n i d (Nat.lt_of_succ_lt_succ h)

theorem listMap_self {α : Type} (l : List α) (f : α → α)
    (h : ∀ a ∈ l, f a = a) : l.map f = l := by
  induction l with
  | nil => rfl
  | cons x xs ih =>
    simp only [List.map_cons, h x (by simp)]
    rw [ih fun a ha => h a (by simp [ha])]

/-! ## History controller lemmas -/

theorem updateState_history (s : AppState) (e : List Entity)
    (r : List Relationship) :
    (updateState s e r).history =
      s.history.take (s.historyIndex + 1) ++ [⟨e, r⟩] := rfl

theorem updateState_historyIndex (s : AppState) (e : List Entity)
    (r : List Relationship) :
    (updateState s e r).historyIndex =
      (s.history.take (s.historyIndex + 1)).length := rfl

/-- The snapshot just committed is the current one. -/
theorem currentSnapshot_updateState (s : AppState) (e : List Entity)
    (r : List Relationship) : currentSnapshot (updateState s e r) = ⟨e, r⟩ := by
  unfold currentSnapshot updateState
  exact listGetD_concat _ _ _

/-- After a commit from a well-formed cursor, the cursor sits right after the
retained prefix. -/
theorem updateState_historyIndex_of_lt (s : AppState) (e : List Entity)
    (r : List Relationship) (h : s.historyIndex < s.history.length) :
    (updateState s e r).historyIndex = s.historyIndex + 1 := by
  rw [updateState_historyIndex, List.length_take]
  omega

theorem handleUndo_history (s : AppState) : (handleUndo s).history = s.history := by
  unfold handleUndo
  split <;> rfl

theorem handleRedo_history (s : AppState) : (handleRedo s).history = s.history := by
  unfold handleRedo
  split <;> rfl

/-- Undo right after a commit lands on the snapshot that was current before. -/
theorem currentSnapshot_undo_updateState (s : AppState) (e : List Entity)
    (r : List Relationship) (h : s.historyIndex < s.history.length) :
    currentSnapshot (handleUndo (updateState s e r)) = currentSnapshot s := by
  have hidx := updateState_historyIndex_of_lt s e r h
  unfold handleUndo
  rw [if_pos (by omega : (updateState s e r).historyIndex > 0)]
  unfold currentSnapshot
  rw [updateState_history, hidx]
  simp only [Nat.add_sub_cancel]
  rw [listGetD_append_left _ _ _ _ (by rw [List.length_take]; omega)]
  rw [listGetD_take _ _ _ _ (Nat.lt_succ_self _)]

/-- Undo right after a commit keeps the committed history and moves the cursor
back onto the previous snapshot. -/
theorem undo_updateState_eq (s : AppState) (e : List Entity)
    (r : List Relationship) (h : s.historyIndex < s.history.length) :
    handleUndo (updateState s e r) =
      ⟨(updateState s e r).history, s.historyIndex⟩ := by
  have hidx := updateState_historyIndex_of_lt s e r h
  unfold handleUndo
  rw [if_pos (by omega : (updateState s e r).historyIndex > 0)]
  have hsub : (updateState s e r).historyIndex - 1 = s.historyIndex := by omega
  rw [hsub]

/-- Redo right after that undo returns exactly to the committed state. -/
theorem redo_undo_updateState (s : AppState) (e : List Entity)
    (r : List Relationship) (h : s.historyIndex < s.history.length) :
    handleRedo (handleUndo (updateState s e r)) = updateState s e r := by
  have hidx := updateState_historyIndex_of_lt s e r h
  have hlen : (updateState s e r).history.length = s.historyIndex + 2 := by
    rw [updateState_history, List.length_append, List.length_take]
    simp
    omega
  rw [undo_updateState_eq s e r h]
  unfold handleRedo
  simp only
  rw [if_pos (by simp only [hlen]; omega)]
  have hfin : (updateState s e r) =
      ⟨(updateState s e r).history, s.historyIndex + 1⟩ := by
    rw [← hidx]
  rw [hfin]

/-! ## Geometry scan lemmas -/

theorem distSq_comm (p q : Point) : distSq p q = distSq q p := by
  unfold distSq
  ring

theorem mem_allAnchorPairs {fs ts : List Point} {p : Point × Point} :
    p ∈ allAnchorPairs fs ts ↔ p.1 ∈ fs ∧ p.2 ∈ ts := by
  cases p with
  | mk p1 p2 =>
    simp only [allAnchorPairs, List.mem_flatMap, List.mem_map]
    constructor
    · rintro ⟨f, hf, t, ht, heq⟩
      cases heq
      exact ⟨hf, ht⟩
    · rintro ⟨h1, h2⟩
      exact ⟨p1, h1, p2, h2, rfl⟩

/-- If no remaining pair strictly beats the running minimum, the scan keeps the
current best. -/
theorem scanBest_stay :
    ∀ (pairs : List (Point × Point)) (b : Point × Point) (m : ℚ),
      (∀ q ∈ pairs, ¬ ddPair q < m) → scanBest pairs b (some m) = b
  | [], _, _, _ => rfl
  | p :: rest, b, m, h => by
    simp only [scanBest]
    rw [if_neg (h p (by simp))]
    exact scanBest_stay rest b m fun q hq => h q (by simp [hq])

/-- The scan's result never exceeds the running minimum and is a lower bound of
the remaining pairs, provided the current best realises the running minimum. -/
theorem scanBest_le :
    ∀ (pairs : List (Point × Point)) (b : Point × Point) (m : ℚ),
      ddPair b ≤ m →
      ddPair (scanBest pairs b (some m)) ≤ m ∧
        ∀ q ∈ pairs, ddPair (scanBest pairs b (some m)) ≤ ddPair q
  | [], _, _, hb => ⟨hb, by simp⟩
  | p :: rest, b, m, hb => by
    simp only [scanBest]
    by_cases hc : ddPair p < m
    · rw [if_pos hc]
      obtain ⟨h1, h2⟩ := scanBest_le rest p (ddPair p) le_rfl
      refine ⟨le_trans h1 (le_of_lt hc), ?_⟩
      intro q hq
      rcases List.mem_cons.mp hq with hq | hq
      · rw [hq]; exact h1
      · exact h2 q hq
    · rw [if_neg hc]
      obtain ⟨h1, h2⟩ := scanBest_le rest b m hb
      refine ⟨h1, ?_⟩
      intro q hq
      rcases List.mem_cons.mp hq with hq | hq
      · rw [hq]; exact le_trans h1 (not_lt.mp hc)
      · exact h2 q hq

/-- The scan's result is the initial best or one of the scanned pairs. -/
theorem scanBest_mem :
    ∀ (pairs : List (Point × Point)) (b : Point × Point) (acc : Option ℚ),
      scanBest pairs b acc = b ∨ scanBest pairs b acc ∈ pairs
  | [], _, _ => Or.inl rfl
  | p :: rest, b, none => by
    simp only [scanBest]
    rcases scanBest_mem rest p (some (ddPair p)) with h | h
    · exact Or.inr (by simp [h])
    · exact Or.inr (by simp [h])
  | p :: rest, b, some m => by
    simp only [scanBest]
    by_cases hc : ddPair p < m
    · rw [if_pos hc]
      rcases scanBest_mem rest p (some (ddPair p)) with h | h
      · exact Or.inr (by simp [h])
      · exact Or.inr (by simp [h])
    · rw [if_neg hc]
      rcases scanBest_mem rest b (some m) with h | h
      · exact Or.inl h
      · exact Or.inr (by simp [h])

/-- The full scan starting from `Infinity` returns a pair of minimal distance
that belongs to the scanned list. -/
theorem scanBest_none_spec :
    ∀ (pairs : List (Point × Point)) (b : Point × Point), pairs ≠ [] →
      (∀ q ∈ pairs, ddPair (scanBest pairs b none) ≤ ddPair q) ∧
        scanBest pairs b none ∈ pairs
  | [], _, h => absurd rfl h
  | p :: rest, b, _ => by
    simp only [scanBest]
    obtain ⟨h1, h2⟩ := scanBest_le rest p (ddPair p) le_rfl
    refine ⟨?_, ?_⟩
    · intro q hq
      rcases List.mem_cons.mp hq with hq | hq
      · rw [hq]; exact h1
      · exact h2 q hq
    · rcases scanBest_mem rest p (some (ddPair p)) with h | h
      · simp [h]
      · simp [h]

/-- A strictly unique minimiser below the running minimum is what the scan
returns. -/
theorem scanBest_pick :
    ∀ (pairs : List (Point × Point)) (b : Point × Point) (m : ℚ)
      (w : Point × Point), w ∈ pairs → ddPair w < m →
      (∀ q ∈ pairs, q ≠ w → ddPair w < ddPair q) →
      scanBest pairs b (some m) = w
  | [], _, _, _, hw, _, _ => absurd hw (by simp)
  | p :: rest, b, m, w, hw, hlt, hu => by
    simp only [scanBest]
    by_cases hpw : p = w
    · rw [hpw, if_pos hlt]
      apply scanBest_stay
      intro q hq
      by_cases hqw : q = w
      · rw [hqw]; exact lt_irrefl _
      · exact fun hc => absurd hc (not_lt.mpr (le_of_lt (hu q (by simp [hq]) hqw)))
    · have hwrest : w ∈ rest := by
        rcases List.mem_cons.mp hw with hq | hq
        · exact absurd hq.symm hpw
        · exact hq
      have hwp : ddPair w < ddPair p := hu p (by simp) fun hc => hpw hc
      by_cases hc : ddPair p < m
      · rw [if_pos hc]
        exact scanBest_pick rest p (ddPair p) w hwrest hwp
          fun q hq hqw => hu q (by simp [hq]) hqw
      · rw [if_neg hc]
        exact scanBest_pick rest b m w hwrest hlt
          fun q hq hqw => hu q (by simp [hq]) hqw

/-- A strictly unique minimiser is what the full scan returns. -/
theorem scanBest_none_unique :
    ∀ (pairs : List (Point × Point)) (b : Point × Point)
      (w : Point × Point), w ∈ pairs →
      (∀ q ∈ pairs, q ≠ w → ddPair w < ddPair q) →
      scanBest pairs b none = w
  | [], _, _, hw, _ => absurd hw (by simp)
  | p :: rest, b, w, hw, hu => by
    simp only [scanBest]
    by_cases hpw : p = w
    · rw [hpw]
      apply scanBest_stay
      intro q hq
      by_cases hqw : q = w
      · rw [hqw]; exact lt_irrefl _
      · exact fun hc => absurd hc (not_lt.mpr (le_of_lt (hu q (by simp [hq]) hqw)))
    · have hwrest : w ∈ rest := by
        rcases List.mem_cons.mp hw with hq | hq
        · exact absurd hq.symm hpw
        · exact hq
      have hwp : ddPair w < ddPair p := hu p (by simp) fun hc => hpw hc
      exact scanBest_pick rest p (ddPair p) w hwrest hwp
        fun q hq hqw => hu q (by simp [hq]) hqw

theorem bestPoints_eq_of_unique (A B : Entity) (w : Point × Point)
    (hw : w ∈ allAnchorPairs (getAnchors A) (getAnchors B))
    (hu : ∀ q ∈ allAnchorPairs (getAnchors A) (getAnchors B),
      q ≠ w → ddPair w < ddPair q) :
    bestPoints A B = w := by
  unfold bestPoints
  exact scanBest_none_unique _ _ w hw hu

theorem bestPoints_min (A B : Entity) :
    (∀ q ∈ allAnchorPairs (getAnchors A) (getAnchors B),
      ddPair (bestPoints A B) ≤ ddPair q) ∧
      bestPoints A B ∈ allAnchorPairs (getAnchors A) (getAnchors B) := by
  unfold bestPoints
  apply scanBest_none_spec
  simp [allAnchorPairs, getAnchors]

/-! ## Operation-level lemmas -/

theorem nextCardinality_six (c : Cardinality) :
    nextCardinality (nextCardinality (nextCardinality (nextCardinality
      (nextCardinality (nextCardinality c))))) = c := by
  cases c <;> rfl

theorem cycleRel_id (rid : String) (pt : WhichEnd) (rel : Relationship) :
    (cycleRel rid pt rel).id = rel.id := by
  unfold cycleRel
  split
  · cases pt <;> rfl
  · rfl

theorem cycleRel_six (rid : String) (pt : WhichEnd) (rel : Relationship) :
    cycleRel rid pt (cycleRel rid pt (cycleRel rid pt (cycleRel rid pt
      (cycleRel rid pt (cycleRel rid pt rel))))) = rel := by
  by_cases h : rel.id = rid
  · cases pt <;> cases rel <;> simp_all [cycleRel, nextCardinality_six]
  · simp [cycleRel, h]

theorem currentSnapshot_cardinalityChange (s : ErdState) (rid : String) (pt : WhichEnd) :
    currentSnapshot (handleCardinalityChange s rid pt).app =
      ⟨(currentSnapshot s.app).entities,
       (currentSnapshot s.app).relationships.map (cycleRel rid pt)⟩ := by
  unfold handleCardinalityChange
  exact currentSnapshot_updateState _ _ _

/-- Flushing a pending rename never changes the relationship collection. -/
theorem finishEditing_rels (s : ErdState) (tv : String) :
    (currentSnapshot (handleFinishEditing s tv).app).relationships =
      (currentSnapshot s.app).relationships := by
  unfold handleFinishEditing
  cases s.editingEntityId
  · rfl
  · simp [currentSnapshot_updateState]

/-- The duplicate-pair check: `alreadyExists = false` means no existing
relationship shares the unordered pair. -/
theorem alreadyExists_false_iff (rels : List Relationship) (a b : String) :
    alreadyExists rels a b = false ↔
      ∀ r ∈ rels, ¬ ((r.fromId = a ∧ r.toId = b) ∨ (r.fromId = b ∧ r.toId = a)) := by
  unfold alreadyExists
  simp

/-- The click branching preserves the unordered-pair invariant. -/
theorem noDupPairs_click_core (s1 : ErdState) (id nid : String)
    (h : NoDupPairs (currentSnapshot s1.app).relationships) :
    NoDupPairs (currentSnapshot (handleEntityClickCore s1 id nid).app).relationships := by
  unfold handleEntityClickCore
  split
  · exact h
  · split
    · exact h
    · split
      · exact h
      · split
        · exact h
        · rename_i fromId hfrom hne hdup
          simp only [currentSnapshot_updateState]
          unfold NoDupPairs
          rw [List.pairwise_append]
          refine ⟨h, by simp, ?_⟩
          intro r hr r2 hr2
          simp only [List.mem_singleton] at hr2
          subst hr2
          have hrne := (alreadyExists_false_iff _ _ _).mp
            (Bool.of_not_eq_true hdup) r hr
          unfold samePair
          simpa using hrne

/-- `handleEntityClick` preserves the unordered-pair invariant. -/
theorem noDupPairs_click (s : ErdState) (id nid tv : String)
    (h : NoDupPairs (currentSnapshot s.app).relationships) :
    NoDupPairs (currentSnapshot (handleEntityClick s id nid tv).app).relationships := by
  unfold handleEntityClick
  apply noDupPairs_click_core
  cases he : s.editingEntityId
  · simpa using h
  · simpa [finishEditing_rels] using h

/-- Intermediate drag moves only touch the renderer, never the editor state. -/
theorem dragMoves_erd (entityId : String) :
    ∀ (moves : List (ℚ × ℚ)) (ds : DragSession),
      (moves.foldl (fun acc p => handleDragMove acc entityId p.1 p.2) ds).erd = ds.erd
  | [], _ => rfl
  | m :: rest, ds => by
    rw [List.foldl_cons]
    rw [dragMoves_erd entityId rest (handleDragMove ds entityId m.1 m.2)]
    rfl

/-! ## Claim theorems -/

/-- C3: `commit` truncates the snapshots after the cursor, appends the new
snapshot and advances the cursor onto it; undo immediately after a committed
mutation restores the prior snapshot and redo after that undo restores the
mutated state exactly; undo at cursor 0 and redo at the last index are no-ops;
undo and redo never mutate the stored snapshots. -/
theorem claim_history_undo_redo (s : AppState) (e : List Entity)
    (r : List Relationship) (h : s.historyIndex < s.history.length) :
    currentSnapshot (handleUndo (updateState s e r)) = currentSnapshot s ∧
    handleRedo (handleUndo (updateState s e r)) = updateState s e r ∧
    currentSnapshot (updateState s e r) = ⟨e, r⟩ ∧
    (updateState s e r).history =
      s.history.take (s.historyIndex + 1) ++ [⟨e, r⟩] ∧
    (updateState s e r).historyIndex = s.historyIndex + 1 ∧
    (s.historyIndex = 0 → handleUndo s = s) ∧
    (s.historyIndex = s.history.length - 1 → handleRedo s = s) ∧
    (handleUndo s).history = s.history ∧
    (handleRedo s).history = s.history := by
  refine ⟨currentSnapshot_undo_updateState s e r h,
    redo_undo_updateState s e r h,
    currentSnapshot_updateState s e r,
    updateState_history s e r,
    updateState_historyIndex_of_lt s e r h, ?_, ?_,
    handleUndo_history s, handleRedo_history s⟩
  · intro h0
    unfold handleUndo
    rw [if_neg (by omega)]
  · intro hlast
    unfold handleRedo
    rw [if_neg (by omega)]

/-- C3 witness: a concrete commit of a one-entity snapshot on a two-snapshot
history, undone. -/
theorem claim_history_undo_redo_witness :
    appAB.historyIndex < appAB.history.length ∧
      currentSnapshot (handleUndo (updateState appAB [entA] [])) =
        currentSnapshot appAB :=
  ⟨by decide, (claim_history_undo_redo appAB [entA] [] (by decide)).1⟩

/-- C2: deleting a selected shape removes it and, in the same single committed
snapshot, every connection whose `fromId` or `toId` references it; everything
else survives, and no remaining connection references the deleted id. -/
theorem claim_removeShape_cascades (s : ErdState) (sel : String)
    (h : s.selectedEntityId = some sel) :
    (∀ e ∈ (currentSnapshot (handleDeleteSelected s).app).entities, e.id ≠ sel) ∧
    (∀ r ∈ (currentSnapshot (handleDeleteSelected s).app).relationships,
      r.fromId ≠ sel ∧ r.toId ≠ sel) ∧
    (∀ e ∈ (currentSnapshot s.app).entities, e.id ≠ sel →
      e ∈ (currentSnapshot (handleDeleteSelected s).app).entities) ∧
    (∀ r ∈ (currentSnapshot s.app).relationships,
      r.fromId ≠ sel → r.toId ≠ sel →
      r ∈ (currentSnapshot (handleDeleteSelected s).app).relationships) ∧
    (handleDeleteSelected s).app.history =
      s.app.history.take (s.app.historyIndex + 1) ++
        [currentSnapshot (handleDeleteSelected s).app] := by
  have hdel : handleDeleteSelected s =
      { s with
        app := updateState s.app
          ((currentSnapshot s.app).entities.filter fun e => decide (e.id ≠ sel))
          ((currentSnapshot s.app).relationships.filter fun r =>
            decide (r.fromId ≠ sel ∧ r.toId ≠ sel)),
        selectedEntityId := none } := by
    unfold handleDeleteSelected
    rw [h]
  rw [hdel]
  simp only [currentSnapshot_updateState]
  refine ⟨?_, ?_, ?_, ?_, rfl⟩
  · intro e he
    simpa using (List.mem_filter.mp he).2
  · intro r hr
    simpa using (List.mem_filter.mp hr).2
  · intro e he hne
    exact List.mem_filter.mpr ⟨he, by simpa using hne⟩
  · intro r hr h1 h2
    exact List.mem_filter.mpr ⟨hr, by simp [h1, h2]⟩

/-- C2 witness: deleting the middle shape of three with two incident
connections leaves no connection referencing it. -/
theorem claim_removeShape_cascades_witness :
    stateDel.selectedEntityId = some idM ∧
      ∀ r ∈ (currentSnapshot (handleDeleteSelected stateDel).app).relationships,
        r.fromId ≠ idM ∧ r.toId ≠ idM :=
  ⟨by decide, (claim_removeShape_cascades stateDel idM (by decide)).2.1⟩

/-- C5: `cycleCardinality` commits a snapshot whose entities are unchanged and
whose relationships are mapped pointwise: relationships with another id are
unchanged, the clicked relationship keeps its id and endpoints and only the
clicked end advances to the next of the six cardinalities; applying the
operation six times restores the original snapshot. -/
theorem claim_cycleCardinality_order_six (s : ErdState) (rid : String)
    (pt : WhichEnd) :
    (currentSnapshot (handleCardinalityChange s rid pt).app).entities =
      (currentSnapshot s.app).entities ∧
    (currentSnapshot (handleCardinalityChange s rid pt).app).relationships =
      (currentSnapshot s.app).relationships.map (cycleRel rid pt) ∧
    (∀ rel : Relationship, rel.id ≠ rid → cycleRel rid pt rel = rel) ∧
    (∀ rel : Relationship, (cycleRel rid pt rel).id = rel.id ∧
      (cycleRel rid pt rel).fromId = rel.fromId ∧
      (cycleRel rid pt rel).toId = rel.toId) ∧
    (∀ rel : Relationship, rel.id = rid → pt = .startSide →
      (cycleRel rid pt rel).startCardinality = nextCardinality rel.startCardinality ∧
      (cycleRel rid pt rel).endCardinality = rel.endCardinality) ∧
    (∀ rel : Relationship, rel.id = rid → pt = .endSide →
      (cycleRel rid pt rel).endCardinality = nextCardinality rel.endCardinality ∧
      (cycleRel rid pt rel).startCardinality = rel.startCardinality) ∧
    currentSnapshot (handleCardinalityChange (handleCardinalityChange
      (handleCardinalityChange (handleCardinalityChange (handleCardinalityChange
        (handleCardinalityChange s rid pt) rid pt) rid pt) rid pt) rid pt)
      rid pt).app = currentSnapshot s.app := by
  refine ⟨by rw [currentSnapshot_cardinalityChange],
    by rw [currentSnapshot_cardinalityChange], ?_, ?_, ?_, ?_, ?_⟩
  · intro rel hne
    simp [cycleRel, hne]
  · intro rel
    refine ⟨cycleRel_id rid pt rel, ?_, ?_⟩ <;>
      · unfold cycleRel
        split
        · cases pt <;> rfl
        · rfl
  · intro rel hid hpt
    subst hpt
    simp [cycleRel, hid]
  · intro rel hid hpt
    subst hpt
    simp [cycleRel, hid]
  · simp only [currentSnapshot_cardinalityChange, List.map_map]
    rw [show currentSnapshot s.app =
      ⟨(currentSnapshot s.app).entities, (currentSnapshot s.app).relationships⟩
      from rfl]
    congr 1
    apply listMap_self
    intro rel _
    simpa [Function.comp] using cycleRel_six rid pt rel

/-- C5 witness: cycling the start cardinality of the concrete connection six
times restores the snapshot. -/
theorem claim_cycleCardinality_order_six_witness :
    currentSnapshot (handleCardinalityChange (handleCardinalityChange
      (handleCardinalityChange (handleCardinalityChange (handleCardinalityChange
        (handleCardinalityChange stateAB rid1 .startSide) rid1 .startSide)
        rid1 .startSide) rid1 .startSide) rid1 .startSide)
      rid1 .startSide).app = currentSnapshot stateAB.app :=
  (claim_cycleCardinality_order_six stateAB rid1 .startSide).2.2.2.2.2.2

/-- C9: `addShape` appends exactly one new shape carrying the kind-dependent
default extent (Action 120×120, the others 150×75) and the display name
`"<Kind> <n>"` with `n` = count of existing shapes of that kind + 1;
relationships are untouched. -/
theorem claim_addShape_defaults (s : ErdState) (etype : EntityType)
    (newId : String) (sx sy : ℚ) :
    ∃ newE : Entity,
      currentSnapshot (handleAddEntity s etype newId sx sy).app =
        ⟨(currentSnapshot s.app).entities ++ [newE],
         (currentSnapshot s.app).relationships⟩ ∧
      newE.id = newId ∧ newE.x = sx ∧ newE.y = sy ∧ newE.type = etype ∧
      newE.width = (if etype = .Action then 120 else 150) ∧
      newE.height = (if etype = .Action then 120 else 75) ∧
      newE.name = typeName etype ++ " " ++
        toString (((currentSnapshot s.app).entities.filter fun e =>
          decide (e.type = etype)).length + 1) := by
  refine ⟨⟨newId, sx, sy,
      if etype = .Action then 120 else 150,
      if etype = .Action then 120 else 75,
      typeName etype ++ " " ++
        toString (((currentSnapshot s.app).entities.filter fun e =>
          decide (e.type = etype)).length + 1),
      etype⟩, ?_, rfl, rfl, rfl, rfl, rfl, rfl, rfl⟩
  unfold handleAddEntity
  exact currentSnapshot_updateState _ _ _

/-- C10: a mutation against a stale id (cycling the cardinality of an absent
connection, committing a rename of an absent shape, dropping an absent shape)
leaves the shape and connection collections structurally equal, yet still
appends one snapshot and advances the cursor — the no-op consumes an undo
step. -/
theorem claim_stale_id_commits_noop_snapshot (s : ErdState) (rid eid : String)
    (pt : WhichEnd) (textValue : String) (fx fy : ℚ)
    (hlen : s.app.historyIndex < s.app.history.length)
    (hrel : ∀ r ∈ (currentSnapshot s.app).relationships, r.id ≠ rid)
    (hent : ∀ e ∈ (currentSnapshot s.app).entities, e.id ≠ eid) :
    (currentSnapshot (handleCardinalityChange s rid pt).app = currentSnapshot s.app ∧
      (handleCardinalityChange s rid pt).app.history =
        s.app.history.take (s.app.historyIndex + 1) ++ [currentSnapshot s.app] ∧
      (handleCardinalityChange s rid pt).app.historyIndex = s.app.historyIndex + 1) ∧
    (s.editingEntityId = some eid →
      currentSnapshot (handleFinishEditing s textValue).app = currentSnapshot s.app ∧
      (handleFinishEditing s textValue).app.history =
        s.app.history.take (s.app.historyIndex + 1) ++ [currentSnapshot s.app] ∧
      (handleFinishEditing s textValue).app.historyIndex = s.app.historyIndex + 1) ∧
    (currentSnapshot (handleDragEnd s eid fx fy).app = currentSnapshot s.app ∧
      (handleDragEnd s eid fx fy).app.history =
        s.app.history.take (s.app.historyIndex + 1) ++ [currentSnapshot s.app] ∧
      (handleDragEnd s eid fx fy).app.historyIndex = s.app.historyIndex + 1) := by
  have hmaprel : (currentSnapshot s.app).relationships.map (cycleRel rid pt) =
      (currentSnapshot s.app).relationships := by
    apply listMap_self
    intro r hr
    simp [cycleRel, hrel r hr]
  have hmapent : ∀ nm : String,
      ((currentSnapshot s.app).entities.map fun e =>
        if e.id = eid then { e with name := nm } else e) =
        (currentSnapshot s.app).entities := by
    intro nm
    apply listMap_self
    intro e he
    simp [hent e he]
  have hmapmove : ((currentSnapshot s.app).entities.map fun en =>
      if en.id = eid then { en with x := fx, y := fy } else en) =
      (currentSnapshot s.app).entities := by
    apply listMap_self
    intro e he
    simp [hent e he]
  have hsnapeta : (⟨(currentSnapshot s.app).entities,
      (currentSnapshot s.app).relationships⟩ : Snapshot) =
      currentSnapshot s.app := rfl
  refine ⟨⟨?_, ?_, ?_⟩, fun hedit => ⟨?_, ?_, ?_⟩, ?_, ?_, ?_⟩
  · rw [currentSnapshot_cardinalityChange, hmaprel]
  · unfold handleCardinalityChange
    rw [updateState_history, hmaprel, hsnapeta]
  · unfold handleCardinalityChange
    exact updateState_historyIndex_of_lt _ _ _ hlen
  · unfold handleFinishEditing
    rw [hedit]
    simp only [currentSnapshot_updateState]
    rw [hmapent textValue, hsnapeta]
  · unfold handleFinishEditing
    rw [hedit]
    simp only [updateState_history]
    rw [hmapent textValue, hsnapeta]
  · unfold handleFinishEditing
    rw [hedit]
    exact updateState_historyIndex_of_lt _ _ _ hlen
  · unfold handleDragEnd
    rw [currentSnapshot_updateState, hmapmove, hsnapeta]
  · unfold handleDragEnd
    rw [updateState_history, hmapmove, hsnapeta]
  · unfold handleDragEnd
    exact updateState_historyIndex_of_lt _ _ _ hlen

/-- C10 witness: cardinality-cycling an absent connection id and drag-ending an
absent shape id on a concrete graph still advance the cursor. -/
theorem claim_stale_id_commits_noop_snapshot_witness :
    stateStale.app.historyIndex < stateStale.app.history.length ∧
      currentSnapshot (handleCardinalityChange stateStale idZ .startSide).app =
        currentSnapshot stateStale.app ∧
      (handleCardinalityChange stateStale idZ .startSide).app.historyIndex =
        stateStale.app.historyIndex + 1 :=
  ⟨by decide,
    (claim_stale_id_commits_noop_snapshot stateStale idZ idZ .startSide idZ 0 0
      (by decide) (by decide) (by decide)).1.1,
    (claim_stale_id_commits_noop_snapshot stateStale idZ idZ .startSide idZ 0 0
      (by decide) (by decide) (by decide)).1.2.2⟩

/-- C1: a connect attempt between already-connected shapes (in either
orientation, since the duplicate check is symmetric in the pair) is rejected:
the store and history are unchanged and connection mode resets; moreover any
entity click preserves the no-duplicate-unordered-pair invariant, so a second
connection over the same pair is never added. -/
theorem claim_duplicate_connection_rejected (s : ErdState)
    (a b newRelId textValue : String)
    (hedit : s.editingEntityId = none)
    (hrc : s.relationshipCreation = ⟨true, some a⟩)
    (hab : a ≠ b)
    (hdup : alreadyExists (currentSnapshot s.app).relationships a b = true) :
    ((handleEntityClick s b newRelId textValue).app = s.app ∧
      (handleEntityClick s b newRelId textValue).relationshipCreation =
        ⟨false, none⟩) ∧
    ∀ (s2 : ErdState) (id2 nid2 tv2 : String),
      NoDupPairs (currentSnapshot s2.app).relationships →
      NoDupPairs (currentSnapshot (handleEntityClick s2 id2 nid2 tv2).app).relationships := by
  refine ⟨?_, fun s2 id2 nid2 tv2 h2 => noDupPairs_click s2 id2 nid2 tv2 h2⟩
  have hclick : handleEntityClick s b newRelId textValue =
      { s with relationshipCreation := ⟨false, none⟩ } := by
    unfold handleEntityClick
    rw [hedit]
    unfold handleEntityClickCore
    rw [hrc]
    simp only [Bool.true_eq_false, if_false]
    rw [if_neg hab, if_pos hdup, hedit]
  rw [hclick]
  exact ⟨rfl, rfl⟩

/-- C1 witness: with `a`–`b` already connected, clicking `b` as the target of a
pending connection from `a` leaves the store and history untouched. -/
theorem claim_duplicate_connection_rejected_witness :
    alreadyExists (currentSnapshot stateConn.app).relationships idA idB = true ∧
      (handleEntityClick stateConn idB rid2 idZ).app = stateConn.app :=
  ⟨by decide,
    (claim_duplicate_connection_rejected stateConn idA idB rid2 idZ rfl rfl
      (by decide) (by decide)).1.1⟩

/-- C6: clicking the shape already recorded as the pending connection source is
a complete no-op: no connection is created, the graph and history are
unchanged, and the interaction still awaits a connection target. -/
theorem claim_self_connection_rejected (s : ErdState) (a newRelId textValue : String)
    (hedit : s.editingEntityId = none)
    (hrc : s.relationshipCreation = ⟨true, some a⟩) :
    handleEntityClick s a newRelId textValue = s ∧
    (handleEntityClick s a newRelId textValue).relationshipCreation =
      ⟨true, some a⟩ := by
  have hclick : handleEntityClick s a newRelId textValue = s := by
    unfold handleEntityClick
    rw [hedit]
    unfold handleEntityClickCore
    rw [hrc]
    simp
  exact ⟨hclick, by rw [hclick, hrc]⟩

/-- C6 witness: clicking the pending source shape itself on a concrete state. -/
theorem claim_self_connection_rejected_witness :
    stateConn.relationshipCreation = ⟨true, some idA⟩ ∧
      handleEntityClick stateConn idA rid2 idZ = stateConn :=
  ⟨rfl, (claim_self_connection_rejected stateConn idA rid2 idZ rfl rfl).1⟩

/-- C7: a successful connect commits exactly the old graph plus one new
connection whose start and end cardinalities are both `ONE_AND_ONLY_ONE`. -/
theorem claim_new_connection_default_cardinalities (s : ErdState)
    (a b newRelId textValue : String)
    (hedit : s.editingEntityId = none)
    (hrc : s.relationshipCreation = ⟨true, some a⟩)
    (hab : a ≠ b)
    (hdup : alreadyExists (currentSnapshot s.app).relationships a b = false) :
    currentSnapshot (handleEntityClick s b newRelId textValue).app =
      ⟨(currentSnapshot s.app).entities,
       (currentSnapshot s.app).relationships ++
         [⟨newRelId, a, b, .ONE_AND_ONLY_ONE, .ONE_AND_ONLY_ONE⟩]⟩ ∧
    (handleEntityClick s b newRelId textValue).relationshipCreation =
      ⟨false, none⟩ := by
  have hclick : handleEntityClick s b newRelId textValue =
      { s with
        app := updateState s.app (currentSnapshot s.app).entities
          ((currentSnapshot s.app).relationships ++
            [⟨newRelId, a, b, .ONE_AND_ONLY_ONE, .ONE_AND_ONLY_ONE⟩]),
        relationshipCreation := ⟨false, none⟩ } := by
    unfold handleEntityClick
    rw [hedit]
    unfold handleEntityClickCore
    rw [hrc]
    simp only [Bool.true_eq_false, if_false]
    rw [if_neg hab, if_neg (by simp [hdup]), hedit]
  rw [hclick]
  exact ⟨currentSnapshot_updateState _ _ _, rfl⟩

/-- C7 witness: connecting `a` to `b` on a graph with no prior connection
yields the single connection with both default cardinalities. -/
theorem claim_new_connection_default_cardinalities_witness :
    alreadyExists (currentSnapshot stateConnFree.app).relationships idA idB = false ∧
      currentSnapshot (handleEntityClick stateConnFree idB rid2 idZ).app =
        ⟨[entA, entB], [⟨rid2, idA, idB, .ONE_AND_ONLY_ONE, .ONE_AND_ONLY_ONE⟩]⟩ :=
  ⟨by decide,
    (claim_new_connection_default_cardinalities stateConnFree idA idB rid2 idZ rfl rfl
      (by decide) (by decide)).1⟩

/-- C4: a drag through any number of intermediate pointer positions leaves the
store and history untouched during the moves (only the renderer is redrawn) and
produces exactly one new history entry at drag-end, in which the dragged shape
sits at the release position, never an intermediate one. -/
theorem claim_drag_commits_once (ds : DragSession) (entityId : String)
    (moves : List (ℚ × ℚ)) (fx fy : ℚ)
    (hidx : ds.erd.app.historyIndex + 1 = ds.erd.app.history.length) :
    (moves.foldl (fun acc p => handleDragMove acc entityId p.1 p.2) ds).erd =
      ds.erd ∧
    (dragSequence ds entityId moves fx fy).erd.app.history =
      ds.erd.app.history ++
        [⟨(currentSnapshot ds.erd.app).entities.map fun en =>
            if en.id = entityId then { en with x := fx, y := fy } else en,
          (currentSnapshot ds.erd.app).relationships⟩] ∧
    (dragSequence ds entityId moves fx fy).erd.app.history.length =
      ds.erd.app.history.length + 1 ∧
    currentSnapshot (dragSequence ds entityId moves fx fy).erd.app =
      ⟨(currentSnapshot ds.erd.app).entities.map fun en =>
          if en.id = entityId then { en with x := fx, y := fy } else en,
        (currentSnapshot ds.erd.app).relationships⟩ ∧
    ∀ en ∈ (currentSnapshot (dragSequence ds entityId moves fx fy).erd.app).entities,
      en.id = entityId → en.x = fx ∧ en.y = fy := by
  have hfold := dragMoves_erd entityId moves ds
  have hseq : (dragSequence ds entityId moves fx fy).erd =
      handleDragEnd ds.erd entityId fx fy := by
    show handleDragEnd
      (moves.foldl (fun acc p => handleDragMove acc entityId p.1 p.2) ds).erd
      entityId fx fy = handleDragEnd ds.erd entityId fx fy
    rw [hfold]
  have htake : ds.erd.app.history.take (ds.erd.app.historyIndex + 1) =
      ds.erd.app.history := by
    rw [hidx]
    exact List.take_length _
  have hsnap : currentSnapshot (handleDragEnd ds.erd entityId fx fy).app =
      ⟨(currentSnapshot ds.erd.app).entities.map fun en =>
          if en.id = entityId then { en with x := fx, y := fy } else en,
        (currentSnapshot ds.erd.app).relationships⟩ := by
    unfold handleDragEnd
    exact currentSnapshot_updateState _ _ _
  refine ⟨hfold, ?_, ?_, ?_, ?_⟩
  · rw [hseq]
    unfold handleDragEnd
    rw [updateState_history, htake]
  · rw [hseq]
    unfold handleDragEnd
    rw [updateState_history, htake]
    simp
  · rw [hseq, hsnap]
  · intro en hen hid
    rw [hseq, hsnap] at hen
    simp only [List.mem_map] at hen
    obtain ⟨a, _, ha⟩ := hen
    by_cases hcase : a.id = entityId
    · rw [if_pos hcase] at ha
      rw [← ha]
      exact ⟨rfl, rfl⟩
    · rw [if_neg hcase] at ha
      rw [← ha] at hid
      exact absurd hid hcase

/-- C4 witness: a concrete drag of shape `a` through two intermediate positions
releasing at (50, 60) grows the history by exactly one entry. -/
theorem claim_drag_commits_once_witness :
    dragStart.erd.app.historyIndex + 1 = dragStart.erd.app.history.length ∧
      (dragSequence dragStart idA [(1, 2), (3, 4)] 50 60).erd.app.history.length =
        dragStart.erd.app.history.length + 1 :=
  ⟨by decide,
    (claim_drag_commits_once dragStart idA [(1, 2), (3, 4)] 50 60 (by decide)).2.2.1⟩

/-- C8 counterexample: with `A` a 10×10 shape at (0, 0) and `C` a 10×10 shape
at (20, −20), two anchor pairs tie at the minimal distance and the two scan
orders pick non-corresponding pairs, so the line of `route(C, A)` is not the
reversal of the line of `route(A, C)`. -/
theorem claim_route_symmetry_counterexample :
    routeLine geoA geoC = [5, 0, 20, -15] ∧
    routeLine geoC geoA = [25, -10, 10, 5] ∧
    routeLine geoC geoA ≠ [20, -15, 5, 0] := by
  refine ⟨?_, ?_, ?_⟩ <;>
    norm_num [routeLine, bestPoints, allAnchorPairs, getAnchors, scanBest,
      ddPair, distSq, geoA, geoC]

/-- C8 (amended): whenever the minimising anchor pair is unique, the route is
symmetric under swapping the two shapes: the selected pair swaps, the connector
line reverses and the start/end marker poses swap; the selected pair always
minimises the distance over all 4×4 anchor pairs.  (On ties the scan order
decides, and symmetry can fail — see the counterexample.) -/
theorem claim_route_symmetric_of_unique_min (A B : Entity) (w : Point × Point)
    (hw : w ∈ allAnchorPairs (getAnchors A) (getAnchors B))
    (hu : ∀ q ∈ allAnchorPairs (getAnchors A) (getAnchors B),
      q ≠ w → ddPair w < ddPair q) :
    bestPoints A B = w ∧
    bestPoints B A = (w.2, w.1) ∧
    routeLine A B = [w.1.x, w.1.y, w.2.x, w.2.y] ∧
    routeLine B A = [w.2.x, w.2.y, w.1.x, w.1.y] ∧
    startMarker B A = endMarker A B ∧
    endMarker B A = startMarker A B ∧
    (∀ q ∈ allAnchorPairs (getAnchors A) (getAnchors B),
      ddPair (bestPoints A B) ≤ ddPair q) := by
  have h1 : bestPoints A B = w := bestPoints_eq_of_unique A B w hw hu
  have h2 : bestPoints B A = (w.2, w.1) := by
    apply bestPoints_eq_of_unique
    · exact mem_allAnchorPairs.mpr
        ⟨(mem_allAnchorPairs.mp hw).2, (mem_allAnchorPairs.mp hw).1⟩
    · intro q hq hne
      have hqswap : (q.2, q.1) ∈ allAnchorPairs (getAnchors A) (getAnchors B) :=
        mem_allAnchorPairs.mpr
          ⟨(mem_allAnchorPairs.mp hq).2, (mem_allAnchorPairs.mp hq).1⟩
      have hne2 : (q.2, q.1) ≠ w := by
        intro hc
        apply hne
        have hfst := congrArg Prod.fst hc
        have hsnd := congrArg Prod.snd hc
        simp only at hfst hsnd
        cases q
        simp only at hfst hsnd
        rw [← hfst, ← hsnd]
      have hlt : distSq w.1 w.2 < distSq q.2 q.1 := hu (q.2, q.1) hqswap hne2
      show distSq w.2 w.1 < distSq q.1 q.2
      rw [distSq_comm w.2 w.1, distSq_comm q.1 q.2]
      exact hlt
  refine ⟨h1, h2, ?_, ?_, ?_, ?_, (bestPoints_min A B).1⟩
  · unfold routeLine
    rw [h1]
  · unfold routeLine
    rw [h2]
  · unfold startMarker endMarker
    rw [h1, h2]
    simp only [MarkerPose.mk.injEq]
    exact ⟨trivial, by ring, by ring, by ring, by ring⟩
  · unfold startMarker endMarker
    rw [h1, h2]
    simp only [MarkerPose.mk.injEq]
    exact ⟨trivial, by ring, by ring, by ring, by ring⟩

/-- C8 amended-claim witness: for shapes at (0,0) and (30,0), the minimiser is
unique, and the route from `B` to `A` is the reversal of the route from `A` to
`B`. -/
theorem claim_route_symmetric_of_unique_min_witness :
    ((⟨10, 5⟩, ⟨30, 5⟩) : Point × Point) ∈
        allAnchorPairs (getAnchors geoA) (getAnchors geoB) ∧
      routeLine geoA geoB = [10, 5, 30, 5] ∧
      routeLine geoB geoA = [30, 5, 10, 5] := by
  have h := claim_route_symmetric_of_unique_min geoA geoB (⟨10, 5⟩, ⟨30, 5⟩)
    (by norm_num [allAnchorPairs, getAnchors, geoA, geoB])
    (by
      norm_num [allAnchorPairs, getAnchors, geoA, geoB, ddPair, distSq,
        List.forall_mem_cons, Point.mk.injEq, Prod.mk.injEq])
  exact ⟨by norm_num [allAnchorPairs, getAnchors, geoA, geoB],
    by simpa using h.2.2.1, by simpa using h.2.2.2.1⟩

end DBHelper
